import Mathlib

/-!
Verification of the MediRemind reminder-delivery core.

Shallow embedding of `backend/models.py`, `backend/worker.py`,
`backend/notifications.py`, `backend/push_notifications.py` and
`backend/routers/notifications.py`.  Database tables are embedded as lists,
machine timestamps as `Nat`, and the side-effecting transports (SMTP, webpush)
as explicit outcome parameters.  Session semantics of SQLAlchemy are embedded
as a pair of stores: the current uncommitted state and the last committed one.
-/

set_option maxRecDepth 16384

namespace MediRemind

/-- `models.ReminderStatus`. -/
inductive ReminderStatus where
  | pending
  | due
  | sent
  | taken
  | skipped
deriving DecidableEq, Repr

/-- `models.Reminder`: id, medication_id, scheduled_time, status. -/
structure Reminder where
  id : Nat
  medicationId : Nat
  scheduledTime : Nat
  status : ReminderStatus
deriving DecidableEq, Repr

/-- `models.Medication` (the fields the reminder core reads). -/
structure Medication where
  id : Nat
  name : String
  dosage : String
  instructions : Option String
  priority : String
  userId : Option Nat
deriving DecidableEq, Repr

/-- `models.User` (the fields the reminder core reads). -/
structure User where
  id : Nat
  email : Option String
  emailNotifications : Bool
deriving DecidableEq, Repr

/-- `models.PushSubscription`. -/
structure PushSubscription where
  id : Nat
  userId : Nat
  endpoint : String
  p256dh_key : String
  auth_key : String
deriving DecidableEq, Repr

/-- The relational store: one list per table. -/
structure Store where
  reminders : List Reminder
  medications : List Medication
  users : List User
  subs : List PushSubscription
deriving DecidableEq, Repr

/-- Python truthiness of an `Optional[str]` value. -/
def optTruthy : Option String → Bool
  | none => false
  | some s => !(s == "")

/-- Python `x or default` for an `Optional[str]` value. -/
def optOr (x : Option String) (d : String) : String :=
  match x with
  | none => d
  | some s => if s == "" then d else s

/-- Status of the first reminder row carrying the given id, if any. -/
def statusOfList (rid : Nat) : List Reminder → Option ReminderStatus
  | [] => none
  | r :: rest => if r.id == rid then some r.status else statusOfList rid rest

/-- Set the status of every reminder row carrying the given id. -/
def setStatusList (rid : Nat) (s : ReminderStatus) (l : List Reminder) : List Reminder :=
  l.map (fun r => if r.id == rid then { r with status := s } else r)

/-- Status lookup on a store. -/
def Store.statusOf (st : Store) (rid : Nat) : Option ReminderStatus :=
  statusOfList rid st.reminders

/-- Status update on a store. -/
def Store.setStatus (st : Store) (rid : Nat) (s : ReminderStatus) : Store :=
  { st with reminders := setStatusList rid s st.reminders }

/-- A SQLAlchemy session over the store: current uncommitted state plus the
last committed state. -/
structure DB where
  cur : Store
  committed : Store
deriving DecidableEq, Repr

/-- `db.commit()`. -/
def DB.commit (db : DB) : DB := ⟨db.cur, db.cur⟩

/-- `db.rollback()`. -/
def DB.rollback (db : DB) : DB := ⟨db.committed, db.committed⟩

/-- Character-list begins-with test. -/
def leadsWith : List Char → List Char → Bool
  | [], _ => true
  | _ :: _, [] => false
  | a :: as, b :: bs => a == b && leadsWith as bs

/-- Substring occurrence test on character lists (Python `needle in hay`). -/
def containsSub (needle : List Char) : List Char → Bool
  | [] => leadsWith needle []
  | c :: cs => leadsWith needle (c :: cs) || containsSub needle cs

/-- Python `str.lower()` on a character list. -/
def lowerChars (l : List Char) : List Char :=
  l.map Char.toLower

/-- `exceptions.PushNotificationError`: endpoint plus details. -/
structure PushNotificationError where
  endpoint : String
  details : String
deriving DecidableEq, Repr

/-- `str(e)` of a `PushNotificationError`: the `MediRemindException.__str__`
rendering of the message built in `PushNotificationError.__init__`
(first 50 endpoint characters), with the details appended when truthy. -/
def PushNotificationError.toStr (e : PushNotificationError) : String :=
  let message := "Failed to send push to " ++ e.endpoint.take 50 ++ "..."
  if e.details == "" then message else message ++ " | Details: " ++ e.details

/-- Outcome of the webpush transport for a given endpoint: delivery, an HTTP
410 or 404 response, another `WebPushException`, or an unexpected error. -/
inductive PushOutcome where
  | delivered
  | gone410
  | notFound404
  | webPushErr (msg : String)
  | unexpectedErr (msg : String)
deriving DecidableEq, Repr

/-- `push_notifications.send_push_notification`, with the VAPID configuration
collapsed to whether keys are present and the `webpush` call to an outcome
oracle per endpoint.  Unconfigured VAPID logs and returns `False` without
raising; a 410 or 404 response is re-raised as `PushNotificationError` with
fixed details; every other failure is wrapped with the stringified cause. -/
def send_push_notification (vapidConfigured : Bool) (transport : String → PushOutcome)
    (endpoint : String) : Except PushNotificationError Bool :=
  if !vapidConfigured then .ok false
  else
    match transport endpoint with
    | .delivered => .ok true
    | .gone410 => .error ⟨endpoint, "Subscription expired"⟩
    | .notFound404 => .error ⟨endpoint, "Subscription not found"⟩
    | .webPushErr m => .error ⟨endpoint, m⟩
    | .unexpectedErr m => .error ⟨endpoint, m⟩

/-- A JSON value, for the wire payloads. -/
inductive JVal where
  | str (s : String)
  | num (n : Nat)
  | bool (b : Bool)
  | null
  | obj (fields : List (String × JVal))

/-- The payload dictionary built inside `send_push_notification`. -/
def push_payload (title body : String) (icon url tag : Option String) :
    List (String × JVal) :=
  [("title", .str title),
   ("body", .str body),
   ("icon", .str (optOr icon "/icons/pill-icon.png")),
   ("badge", .str "/icons/badge.png"),
   ("tag", .str (optOr tag "medication-reminder")),
   ("data", .obj [("url", .str (optOr url "/"))])]

/-- The push payload as built by the call in `worker._send_push_to_user`:
title from the medication name, body from dosage and instructions, tag from
the medication id, click URL `/medications`, no icon argument. -/
def worker_push_payload (med : Medication) : List (String × JVal) :=
  push_payload ("💊 " ++ med.name)
    ("Time to take " ++ med.dosage ++ " - " ++ optOr med.instructions "Take as directed")
    none (some "/medications") (some ("med-" ++ toString med.id))

/-- The expiry test in `worker._send_push_to_user`: case-insensitive substring
match of "expired" or "not found" against `str(e)`. -/
def classify_expired (e : PushNotificationError) : Bool :=
  containsSub "expired".data (lowerChars e.toStr.data) ||
  containsSub "not found".data (lowerChars e.toStr.data)

/-- Observable delivery attempts of one worker pass. -/
inductive Event where
  | emailAttempt (recipient : String)
  | pushAttempt (endpoint : String)
deriving DecidableEq, Repr

/-- The subscription loop of `worker._send_push_to_user`: returns the success
count, the subscriptions classified as expired, and the attempts made. -/
def push_loop (vapidConfigured : Bool) (transport : String → PushOutcome) :
    List PushSubscription → Nat × List PushSubscription × List Event
  | [] => (0, [], [])
  | s :: rest =>
    let res := send_push_notification vapidConfigured transport s.endpoint
    let restRes := push_loop vapidConfigured transport rest
    match res with
    | .ok _ => (restRes.1 + 1, restRes.2.1, .pushAttempt s.endpoint :: restRes.2.2)
    | .error e =>
        (restRes.1, (if classify_expired e then [s] else []) ++ restRes.2.1,
         .pushAttempt s.endpoint :: restRes.2.2)

/-- `worker._get_user_push_subscriptions`. -/
def get_user_push_subscriptions (st : Store) (userId : Nat) : List PushSubscription :=
  st.subs.filter (fun s => s.userId == userId)

/-- `worker._send_push_to_user`: fan out over the subscriptions of the user,
collect expired ones, delete them, and commit only when something was
deleted.  The notification content is `worker_push_payload` of the
medication; it does not influence control flow and is kept separate. -/
def send_push_to_user (vapidConfigured : Bool) (transport : String → PushOutcome)
    (db : DB) (user : User) : DB × List Event × Nat :=
  let subscriptions := get_user_push_subscriptions db.cur user.id
  if subscriptions.isEmpty then (db, [], 0)
  else
    let res := push_loop vapidConfigured transport subscriptions
    let db1 : DB := { db with cur := { db.cur with
        subs := db.cur.subs.filter (fun s => !(res.2.1.any (fun e => e.id == s.id))) } }
    let db2 := if res.2.1.isEmpty then db1 else db1.commit
    (db2, res.2.2, res.1)

/-- `notifications.SMTPConfig`. -/
structure SMTPConfig where
  server : String
  port : Nat
  username : String
  password : String
  from_email : String
deriving DecidableEq, Repr

/-- `SMTPConfig.is_configured`: Python `bool(self.username and self.password)`. -/
def SMTPConfig.is_configured (c : SMTPConfig) : Bool :=
  !(c.username == "") && !(c.password == "")

/-- Outcome of one SMTP session in `notifications._send_smtp_email`. -/
inductive SMTPOutcome where
  | accepted
  | authFailed
  | recipientsRefused
  | smtpFailure (msg : String)
  | unexpectedFailure (msg : String)
deriving DecidableEq, Repr

/-- `exceptions.EmailDeliveryError`: recipient plus details. -/
structure EmailDeliveryError where
  recipient : String
  details : String
deriving DecidableEq, Repr

/-- A log line of the email service. -/
inductive EmailLog where
  | mock (recipient subject shownBody : String)
  | delivered (recipient : String)
deriving DecidableEq, Repr

/-- `notifications._mock_send_email`: logs recipient, subject and the body
truncated to 200 characters with an ellipsis. -/
def mock_send_email (recipient subject body : String) : EmailLog :=
  .mock recipient subject
    (if body.length > 200 then body.take 200 ++ "..." else body)

/-- `notifications._send_smtp_email` with the SMTP session collapsed to an
outcome: distinguishes authentication failure, recipient-refused failure and
generic failures as distinct `EmailDeliveryError` details. -/
def send_smtp_email (transport : SMTPOutcome) (recipient : String) :
    Except EmailDeliveryError (Bool × List EmailLog) :=
  match transport with
  | .accepted => .ok (true, [.delivered recipient])
  | .authFailed => .error ⟨recipient, "Authentication failed"⟩
  | .recipientsRefused => .error ⟨recipient, "Recipient refused"⟩
  | .smtpFailure m => .error ⟨recipient, m⟩
  | .unexpectedFailure m => .error ⟨recipient, m⟩

/-- `notifications.send_email`: mock path when SMTP credentials are absent,
SMTP path otherwise.  Returns the reported success flag and the log lines. -/
def send_email (cfg : SMTPConfig) (transport : SMTPOutcome)
    (recipient subject body : String) : Except EmailDeliveryError (Bool × List EmailLog) :=
  if !cfg.is_configured then .ok (true, [mock_send_email recipient subject body])
  else send_smtp_email transport recipient

/-- The email channel of the worker: SMTP configuration plus session outcome. -/
structure EmailEnv where
  cfg : SMTPConfig
  transport : SMTPOutcome
deriving DecidableEq, Repr

/-- The push channel of the worker: VAPID presence plus webpush outcomes. -/
structure PushEnv where
  vapidConfigured : Bool
  transport : String → PushOutcome

/-- `reminder.medication`: relationship lookup by `medication_id`. -/
def find_medication (st : Store) (mid : Nat) : Option Medication :=
  st.medications.find? (fun m => m.id == mid)

/-- `medication.user`: relationship lookup by `user_id`. -/
def medication_user (st : Store) (m : Medication) : Option User :=
  match m.userId with
  | none => none
  | some uid => st.users.find? (fun u => u.id == uid)

/-- Subject line built in `worker._process_reminder`. -/
def build_email_subject (med : Medication) : String :=
  "Medication Reminder: " ++ med.name

/-- `worker._build_email_body`: the HTML template interpolates the medication
name, dosage and instructions (markup boilerplate kept to the tags around the
interpolated fields). -/
def build_email_body (med : Medication) : String :=
  "<h2>⏰ Time to take your medication</h2><strong>" ++ med.name ++ "</strong> ("
    ++ med.dosage ++ ") " ++ optOr med.instructions "Take as directed"
    ++ " This is an automated reminder from MediRemind."

/-- Worker loop state: session, delivery attempts made, processed count. -/
structure WState where
  db : DB
  events : List Event
  count : Nat
deriving Repr

/-- `worker._process_reminder`.  A missing medication raises (the attribute
access on `None`), modelled as the error branch with the state unchanged.
The status is set to DUE before the user check; a missing user returns early.
`send_email` is invoked when the user opted in and has an address; its
`EmailDeliveryError` is caught and only logged, so its outcome does not flow
into the state.  Push fan-out runs afterwards. -/
def process_reminder (email : EmailEnv) (push : PushEnv) (r : Reminder) (ws : WState) :
    Except WState WState :=
  match find_medication ws.db.cur r.medicationId with
  | none => .error ws
  | some med =>
    let user? := medication_user ws.db.cur med
    let db1 : DB := { ws.db with cur := ws.db.cur.setStatus r.id .due }
    match user? with
    | none => .ok { ws with db := db1, count := ws.count + 1 }
    | some user =>
      let evEmail :=
        if user.emailNotifications && optTruthy user.email then
          let _ := send_email email.cfg email.transport (optOr user.email "")
            (build_email_subject med) (build_email_body med)
          [Event.emailAttempt (optOr user.email "")]
        else []
      let pushRes := send_push_to_user push.vapidConfigured push.transport db1 user
      .ok { db := pushRes.1, events := ws.events ++ evEmail ++ pushRes.2.1,
            count := ws.count + 1 }

/-- The per-reminder loop of `worker.check_reminders`: an exception aborts the
remaining iterations and propagates. -/
def process_all (email : EmailEnv) (push : PushEnv) :
    List Reminder → WState → Except WState WState
  | [], ws => .ok ws
  | r :: rest, ws =>
    match process_reminder email push r ws with
    | .ok ws1 => process_all email push rest ws1
    | .error ws1 => .error ws1

/-- The query in `worker.check_reminders`: status PENDING and scheduled time
at or before now; the query carries no ordering clause, so rows keep store
order. -/
def due_pending_query (st : Store) (now : Nat) : List Reminder :=
  st.reminders.filter (fun r => r.status == .pending && decide (r.scheduledTime ≤ now))

/-- `worker.check_reminders`: query, process each row, commit on success; any
exception rolls the session back to the last committed state.  Returns the
committed store, the delivery attempts and the processed count. -/
def check_reminders (email : EmailEnv) (push : PushEnv) (st : Store) (now : Nat) :
    Store × List Event × Nat :=
  match process_all email push (due_pending_query st now) ⟨⟨st, st⟩, [], 0⟩ with
  | .ok ws => ((ws.db.commit).committed, ws.events, ws.count)
  | .error ws => ((ws.db.rollback).committed, ws.events, ws.count)

/-- The fixed disclaimer sentence of the stream generator. -/
def disclaimer_text : String :=
  "This is an important medication. If you have missed this dose, " ++
    "please consult your healthcare provider before adjusting your schedule."

/-- The disclaimer variable of `routers/notifications.notification_generator`:
set exactly for HIGH priority. -/
def stream_disclaimer (med : Medication) : Option String :=
  if med.priority == "HIGH" then some disclaimer_text else none

/-- Python `str.lower()` on a string. -/
def lowerStr (s : String) : String :=
  String.mk (lowerChars s.data)

/-- The `friendly_message` of the stream generator: instructions are appended
only when truthy and not a placeholder value. -/
def friendly_message (med : Medication) : String :=
  let base := "It is time for your " ++ med.name ++ " (" ++ med.dosage ++ ")"
  match med.instructions with
  | none => base
  | some ins =>
      if !(ins == "") && !(lowerStr ins == "test") && !(lowerStr ins == "take as directed")
      then base ++ " — " ++ ins else base

/-- The event dictionary yielded by the stream generator.  The ISO-8601
rendering of the scheduled time is abstracted to the numeric timestamp. -/
def stream_event_payload (r : Reminder) (med : Medication) : List (String × JVal) :=
  [("id", .num r.id),
   ("medicationName", .str med.name),
   ("dosage", .str med.dosage),
   ("instructions", .str (optOr med.instructions "Take as directed")),
   ("scheduledTime", .num r.scheduledTime),
   ("message", .str (friendly_message med)),
   ("isHighRisk", .bool (med.priority == "HIGH")),
   ("disclaimer", match stream_disclaimer med with | some s => JVal.str s | none => JVal.null),
   ("actionLabel", .str "Mark as Taken")]

/-- The query in the stream generator: all DUE reminders joined with their
medication (the join keeps only rows whose medication exists); no ordering
clause and no filter on the connected user. -/
def due_stream_query (st : Store) : List Reminder :=
  st.reminders.filter
    (fun r => r.status == .due && st.medications.any (fun m => m.id == r.medicationId))

/-- One loop iteration of the stream generator: yield one payload per DUE
reminder and set each such reminder to SENT, committing the batch.  The
`none` branch of the medication lookup is unreachable because of the join. -/
def notification_tick (st : Store) : List (List (String × JVal)) × Store :=
  let dues := due_stream_query st
  (dues.map (fun r =>
      match find_medication st r.medicationId with
      | some med => stream_event_payload r med
      | none => []),
   { st with reminders :=
       dues.foldl (fun acc r => setStatusList r.id .sent acc) st.reminders })

/-- `auth.get_current_user_from_token` for the SSE stream: decode the token
to an email, then look the user up by email; `none` models the
`HTTPException` path. -/
def get_current_user_from_token (decode : String → Option String) (st : Store)
    (token : String) : Option User :=
  (decode token).bind (fun em => st.users.find? (fun u => u.email == some em))

/-- Output of the first pass of the stream generator. -/
inductive StreamOutput where
  | unauthorized
  | events (evs : List (List (String × JVal))) (st : Store)

/-- First pass of `notification_generator`: the token is validated once; an
invalid token yields a single error event and the generator returns; a valid
token enters the loop, whose body never reads the validated user. -/
def notification_generator_step (decode : String → Option String) (token : String)
    (st : Store) : StreamOutput :=
  match get_current_user_from_token decode st token with
  | none => .unauthorized
  | some _ =>
      let res := notification_tick st
      .events res.1 res.2

/-- Keys dictionary of the subscribe request: the handler reads
`keys.get("p256dh", "")` and `keys.get("auth", "")`. -/
structure SubscriptionKeys where
  p256dh : Option String
  auth : Option String
deriving DecidableEq, Repr

/-- Fresh autoincrement id for an inserted subscription row. -/
def next_sub_id (subs : List PushSubscription) : Nat :=
  (subs.map (fun s => s.id)).foldl Nat.max 0 + 1

/-- Update the first subscription row with the given endpoint. -/
def update_first_sub (endpoint : String) (f : PushSubscription → PushSubscription) :
    List PushSubscription → List PushSubscription
  | [] => []
  | s :: rest =>
      if s.endpoint == endpoint then f s :: rest
      else s :: update_first_sub endpoint f rest

/-- The in-place update applied to an existing subscription row: owner and
both keys are overwritten, endpoint and id stay. -/
def overwrite_sub (userId : Nat) (keys : SubscriptionKeys) (s : PushSubscription) :
    PushSubscription :=
  ⟨s.id, userId, s.endpoint, keys.p256dh.getD "", keys.auth.getD ""⟩

/-- `routers/notifications.subscribe`: update the existing row for the
endpoint in place (owner and keys) or insert a new row, then commit. -/
def subscribe (userId : Nat) (endpoint : String) (keys : SubscriptionKeys)
    (st : Store) : Store :=
  if st.subs.any (fun s => s.endpoint == endpoint) then
    { st with subs := update_first_sub endpoint (overwrite_sub userId keys) st.subs }
  else
    { st with subs := st.subs ++
        [⟨next_sub_id st.subs, userId, endpoint, keys.p256dh.getD "", keys.auth.getD ""⟩] }

/-- Modelled from the spec: `claim_transition(reminder_id, expected_status,
new_status) -> bool` is declared in section 6 as an operation consumed from
the reminder storage layer excluded from the source tree; only its would-be
call sites (the plain status assignments in `worker._process_reminder` and
the stream generator) are in the repository.  Per the spec it is an atomic
compare-and-set: it succeeds, updating the status, exactly when the row still
carries the expected prior status, and reports failure otherwise. -/
def claim_transition (reminder_id : Nat) (expected_status new_status : ReminderStatus)
    (st : Store) : Bool × Store :=
  match st.statusOf reminder_id with
  | none => (false, st)
  | some s =>
      if s == expected_status then (true, st.setStatus reminder_id new_status)
      else (false, st)

/-- Whether one push attempt against an endpoint raises an error that the
worker classifies as expired (and hence deletes the subscription). -/
def errClassified (v : Bool) (t : String → PushOutcome) (ep : String) : Bool :=
  match send_push_notification v t ep with
  | .ok _ => false
  | .error e => classify_expired e

/-- Whether one push attempt against an endpoint returns without raising. -/
def sendOk (v : Bool) (t : String → PushOutcome) (ep : String) : Bool :=
  match send_push_notification v t ep with
  | .ok _ => true
  | .error _ => false

/-- The delivery attempts `_process_reminder` makes for one reminder, read
off the store: nothing when the medication or user lookup fails, otherwise
the optional email attempt followed by one push attempt per subscription. -/
def reminder_events (st : Store) (r : Reminder) : List Event :=
  match find_medication st r.medicationId with
  | none => []
  | some med =>
    match medication_user st med with
    | none => []
    | some user =>
      (if user.emailNotifications && optTruthy user.email
       then [Event.emailAttempt (optOr user.email "")] else [])
      ++ (get_user_push_subscriptions st user.id).map (fun s => Event.pushAttempt s.endpoint)

/-- Concatenation of `reminder_events` over a processing batch, in order. -/
def events_of (st : Store) : List Reminder → List Event
  | [] => []
  | r :: rest => reminder_events st r ++ events_of st rest

/-- One forward move (or none) along the PENDING, DUE, SENT chain. -/
def statusForward (a b : Option ReminderStatus) : Prop :=
  b = a ∨ (a = some .pending ∧ b = some .due) ∨ (a = some .due ∧ b = some .sent)

/-- Every row either keeps the status it has in `base` or moved from `a`
(its status in `base`) to `b`. -/
def StepMono (a b : ReminderStatus) (base curL : List Reminder) : Prop :=
  ∀ rid, statusOfList rid curL = statusOfList rid base ∨
    (statusOfList rid base = some a ∧ statusOfList rid curL = some b)

/- Concrete fixtures used by witnesses and counterexamples. -/

/-- Fixture: a user opted into email notifications. -/
def exUser : User := ⟨1, some "alice@example.com", true⟩

/-- Fixture: a second user. -/
def exUserB : User := ⟨2, some "bob@example.com", false⟩

/-- Fixture: a HIGH priority medication of user 1. -/
def exMedHigh : Medication := ⟨1, "Warfarin", "5mg", some "With food", "HIGH", some 1⟩

/-- Fixture: a NORMAL priority medication of user 1. -/
def exMedNormal : Medication := ⟨2, "Vitamin C", "100mg", none, "NORMAL", some 1⟩

/-- Fixture: a push subscription of user 1. -/
def exSubOne : PushSubscription := ⟨1, 1, "endpoint-one", "kA", "sA"⟩

/-- Fixture: a second push subscription of user 1. -/
def exSubTwo : PushSubscription := ⟨2, 1, "endpoint-two", "kB", "sB"⟩

/-- Fixture: store with two pending reminders in non-ascending scheduled
order, one medication, one user, one subscription. -/
def exStorePoll : Store :=
  ⟨[⟨1, 1, 10, .pending⟩, ⟨2, 1, 5, .pending⟩], [exMedHigh], [exUser], [exSubOne]⟩

/-- Fixture: store holding two subscriptions of user 1. -/
def exStoreFan : Store := ⟨[], [], [exUser], [exSubOne, exSubTwo]⟩

/-- Fixture: store holding one subscription of user 1. -/
def exStoreCex : Store := ⟨[], [], [exUser], [exSubOne]⟩

/-- Fixture: store with one DUE reminder and two users. -/
def exStoreStream : Store := ⟨[⟨3, 1, 7, .due⟩], [exMedHigh], [exUser, exUserB], []⟩

/-- Fixture: store with no subscriptions yet. -/
def exStoreSub : Store := ⟨[], [], [exUser, exUserB], []⟩

/-- Fixture: webpush transport that always delivers. -/
def exTransportOk : String → PushOutcome := fun _ => .delivered

/-- Fixture: webpush transport where exactly endpoint-two is gone (410). -/
def exTransportGone : String → PushOutcome :=
  fun ep => if ep == "endpoint-two" then .gone410 else .delivered

/-- Fixture: webpush transport failing transiently with a neutral message. -/
def exTransportBoom : String → PushOutcome := fun _ => .webPushErr "boom"

/-- Fixture: webpush transport failing transiently with a message that
happens to contain the word expired. -/
def exTransportCex : String → PushOutcome := fun _ => .webPushErr "connection expired"

/-- Fixture: push environment with VAPID keys and reliable delivery. -/
def exPushEnv : PushEnv := ⟨true, exTransportOk⟩

/-- Fixture: SMTP configuration without credentials (mock mode). -/
def exSMTPOff : SMTPConfig := ⟨"smtp.gmail.com", 587, "", "", "noreply@mediremind.app"⟩

/-- Fixture: SMTP configuration with credentials. -/
def exSMTPOn : SMTPConfig := ⟨"smtp.gmail.com", 587, "user", "secret", "noreply@mediremind.app"⟩

/-- Fixture: email environment in mock mode. -/
def exEmailOff : EmailEnv := ⟨exSMTPOff, .accepted⟩

/-- Fixture: email environment whose SMTP session fails. -/
def exEmailFail : EmailEnv := ⟨exSMTPOn, .smtpFailure "relay down"⟩

/-- Fixture: token decoder mapping two fixed tokens to the two users. -/
def exDecode : String → Option String :=
  fun t => if t == "tokenA" then some "alice@example.com"
           else if t == "tokenB" then some "bob@example.com" else none

/- Helper lemmas about status lookup and update. -/

theorem statusOfList_isSome_of_mem : ∀ {l : List Reminder} {r : Reminder},
    r ∈ l → (statusOfList r.id l).isSome = true := by
  intro l
  induction l with
  | nil => intro r h; cases h
  | cons a rest ih =>
    intro r h
    cases hh : (a.id == r.id) with
    | true => simp [statusOfList, hh]
    | false =>
      have h2 : r ∈ rest := by
        rcases List.mem_cons.mp h with h1 | h2
        · subst h1; simp at hh
        · exact h2
      simpa [statusOfList, hh] using ih h2

theorem statusOfList_set_self {rid : Nat} {s : ReminderStatus} : ∀ {l : List Reminder},
    (statusOfList rid l).isSome = true →
    statusOfList rid (setStatusList rid s l) = some s := by
  intro l
  induction l with
  | nil => intro h; simp [statusOfList] at h
  | cons a rest ih =>
    intro h
    cases hh : (a.id == rid) with
    | true => simp [statusOfList, setStatusList, hh]
    | false =>
      simp only [statusOfList, setStatusList, List.map_cons, hh, if_neg] at h ⊢
      simp only [hh, Bool.false_eq_true, if_false]
      exact ih (by simpa [statusOfList, hh] using h)

theorem setStatusList_cons (rid : Nat) (s : ReminderStatus) (a : Reminder)
    (rest : List Reminder) :
    setStatusList rid s (a :: rest) =
      (if a.id == rid then { a with status := s } else a) :: setStatusList rid s rest := rfl

theorem statusOfList_set_ne {rid rid' : Nat} {s : ReminderStatus} (h : rid ≠ rid') :
    ∀ {l : List Reminder},
    statusOfList rid (setStatusList rid' s l) = statusOfList rid l := by
  intro l
  induction l with
  | nil => rfl
  | cons a rest ih =>
    rw [setStatusList_cons]
    by_cases hh : (a.id == rid') = true
    · have ha : a.id = rid' := by simpa using hh
      have hno : (a.id == rid) = false := by
        simp only [ha, beq_eq_false_iff_ne]
        exact fun hc => h hc.symm
      simp [statusOfList, hh, hno, ih]
    · have hh' : (a.id == rid') = false := by simpa using hh
      simp only [hh', Bool.false_eq_true, if_false]
      by_cases hr : (a.id == rid) = true
      · simp [statusOfList, hr]
      · have hr' : (a.id == rid) = false := by simpa using hr
        simp [statusOfList, hr', ih]

theorem statusOfList_set_isSome {rid rid' : Nat} {s : ReminderStatus} :
    ∀ {l : List Reminder},
    (statusOfList rid (setStatusList rid' s l)).isSome = (statusOfList rid l).isSome := by
  intro l
  induction l with
  | nil => rfl
  | cons a rest ih =>
    rw [setStatusList_cons]
    by_cases hh : (a.id == rid') = true
    · by_cases hr : (a.id == rid) = true
      · simp [statusOfList, hh, hr]
      · have hr' : (a.id == rid) = false := by simpa using hr
        simp [statusOfList, hh, hr', ih]
    · have hh' : (a.id == rid') = false := by simpa using hh
      by_cases hr : (a.id == rid) = true
      · simp [statusOfList, hh', hr]
      · have hr' : (a.id == rid) = false := by simpa using hr
        simp [statusOfList, hh', hr', ih]

theorem statusOfList_foldl_set_of_eq {s : ReminderStatus} :
    ∀ (L : List Reminder) (acc : List Reminder) (rid : Nat),
    statusOfList rid acc = some s →
    statusOfList rid (L.foldl (fun a r => setStatusList r.id s a) acc) = some s := by
  intro L
  induction L with
  | nil => intro acc rid h; simpa using h
  | cons a L ih =>
    intro acc rid h
    simp only [List.foldl_cons]
    apply ih
    by_cases he : rid = a.id
    · subst he
      exact statusOfList_set_self (by simp [h])
    · rw [statusOfList_set_ne he]
      exact h

theorem statusOfList_foldl_set_mem {s : ReminderStatus} :
    ∀ (L acc : List Reminder) (r₀ : Reminder), r₀ ∈ L →
    (statusOfList r₀.id acc).isSome = true →
    statusOfList r₀.id (L.foldl (fun a r => setStatusList r.id s a) acc) = some s := by
  intro L
  induction L with
  | nil => intro acc r₀ h; cases h
  | cons a L ih =>
    intro acc r₀ hmem hsome
    simp only [List.foldl_cons]
    rcases List.mem_cons.mp hmem with h1 | h2
    · subst h1
      exact statusOfList_foldl_set_of_eq L _ _ (statusOfList_set_self hsome)
    · exact ih _ _ h2 (by rw [statusOfList_set_isSome]; exact hsome)

theorem statusOfList_of_nodup : ∀ {l : List Reminder},
    (l.map (fun r => r.id)).Nodup → ∀ {r : Reminder}, r ∈ l →
    statusOfList r.id l = some r.status := by
  intro l
  induction l with
  | nil => intro _ r h; cases h
  | cons a rest ih =>
    intro hnd r h
    rw [List.map_cons] at hnd
    obtain ⟨hna, hnr⟩ := List.nodup_cons.mp hnd
    rcases List.mem_cons.mp h with h1 | h2
    · subst h1; simp [statusOfList]
    · have hne : (a.id == r.id) = false := by
        cases hb : (a.id == r.id) with
        | false => rfl
        | true =>
          exfalso
          have heq : a.id = r.id := by simpa using hb
          exact hna (heq ▸ List.mem_map_of_mem (fun r => r.id) h2)
      simp only [statusOfList, hne, Bool.false_eq_true, if_false]
      exact ih hnr h2

/- Claim theorems. -/

/-- Claim C1: the claim-transition operation (atomic compare-and-set of the
status) succeeds at most once when invoked twice with the same expected prior
status on the same reminder: the first call returns true and performs the
transition, the second returns false and leaves the store untouched. -/
theorem C1_claim_transition (st : Store) (rid : Nat) (a b : ReminderStatus)
    (hab : a ≠ b) (h : st.statusOf rid = some a) :
    (claim_transition rid a b st).1 = true ∧
    (claim_transition rid a b st).2.statusOf rid = some b ∧
    (claim_transition rid a b (claim_transition rid a b st).2).1 = false ∧
    (claim_transition rid a b (claim_transition rid a b st).2).2 =
      (claim_transition rid a b st).2 := by
  have hfirst : claim_transition rid a b st = (true, st.setStatus rid b) := by
    simp [claim_transition, h]
  have hstat : (st.setStatus rid b).statusOf rid = some b := by
    unfold Store.setStatus Store.statusOf
    exact statusOfList_set_self (by simp [Store.statusOf] at h; simp [h])
  have hsecond : claim_transition rid a b (st.setStatus rid b) = (false, st.setStatus rid b) := by
    have hba : (b == a) = false := by simpa using fun hc => hab hc.symm
    simp [claim_transition, hstat, hba]
  refine ⟨by rw [hfirst], by rw [hfirst]; exact hstat, ?_, ?_⟩
  · rw [hfirst]; simpa using congrArg Prod.fst hsecond
  · rw [hfirst]; simpa using congrArg Prod.snd hsecond

/-- Witness for C1 at a concrete store: the first PENDING to DUE claim on
reminder 1 succeeds, a second identical claim fails. -/
theorem C1_witness :
    (claim_transition 1 .pending .due exStorePoll).1 = true ∧
    (claim_transition 1 .pending .due (claim_transition 1 .pending .due exStorePoll).2).1 =
      false := by
  have h := C1_claim_transition exStorePoll 1 .pending .due (by decide) (by decide)
  exact ⟨h.1, h.2.2.1⟩

/-- Claim C5: with no SMTP credentials configured, send_email reports success
for every recipient, subject and body, produces exactly the mock log entry,
and never raises. -/
theorem C5_send_email_mock (cfg : SMTPConfig) (transport : SMTPOutcome)
    (recipient subject body : String) (h : cfg.is_configured = false) :
    send_email cfg transport recipient subject body =
      .ok (true, [mock_send_email recipient subject body]) := by
  simp [send_email, h]

/-- Witness for C5 at the credential-free configuration. -/
theorem C5_witness :
    send_email exSMTPOff .accepted "alice@example.com" "Medication Reminder: Warfarin"
      "reminder body" =
      .ok (true, [mock_send_email "alice@example.com" "Medication Reminder: Warfarin"
        "reminder body"]) :=
  C5_send_email_mock exSMTPOff .accepted "alice@example.com"
    "Medication Reminder: Warfarin" "reminder body" (by decide)

/-- Counterexample to C9 as stated: for a HIGH priority medication the push
payload built by the worker carries no disclaimer field at all, so the claim
that both push and stream payloads carry a non-empty disclaimer fails. -/
theorem C9_counterexample :
    exMedHigh.priority = "HIGH" ∧
    List.lookup "disclaimer" (worker_push_payload exMedHigh) = none :=
  ⟨rfl, rfl⟩

/-- Claim C9 amended: a HIGH priority medication yields a non-empty
disclaimer in the stream event payload and a NORMAL one yields a null
disclaimer there, while the push payload carries no disclaimer field for any
priority. -/
theorem C9_amended (r : Reminder) (med : Medication) :
    (med.priority = "HIGH" →
      ∃ s, List.lookup "disclaimer" (stream_event_payload r med) = some (.str s) ∧
        s ≠ "") ∧
    (med.priority = "NORMAL" →
      List.lookup "disclaimer" (stream_event_payload r med) = some .null) ∧
    List.lookup "disclaimer" (worker_push_payload med) = none := by
  refine ⟨?_, ?_, rfl⟩
  · intro hp
    refine ⟨disclaimer_text, ?_, by decide⟩
    simp only [stream_event_payload, stream_disclaimer, hp]
    rfl
  · intro hp
    simp only [stream_event_payload, stream_disclaimer, hp]
    rfl

/-- Witness for the amended C9 at concrete HIGH and NORMAL medications. -/
theorem C9_witness :
    (∃ s, List.lookup "disclaimer" (stream_event_payload ⟨3, 1, 7, .due⟩ exMedHigh) =
        some (.str s) ∧ s ≠ "") ∧
    List.lookup "disclaimer" (stream_event_payload ⟨3, 1, 7, .due⟩ exMedNormal) =
      some .null ∧
    List.lookup "disclaimer" (worker_push_payload exMedHigh) = none :=
  ⟨(C9_amended ⟨3, 1, 7, .due⟩ exMedHigh).1 rfl,
   (C9_amended ⟨3, 1, 7, .due⟩ exMedNormal).2.1 rfl,
   (C9_amended ⟨3, 1, 7, .due⟩ exMedHigh).2.2⟩

/-- Counterexample to C3 as stated: the poller query carries no ordering
clause, so on a store whose rows are not in scheduled-time order the returned
list is not sorted by scheduled time ascending. -/
theorem C3_counterexample :
    (due_pending_query exStorePoll 10).map (fun r => r.scheduledTime) = [10, 5] ∧
    ¬ List.Sorted (fun a b => a ≤ b)
      ((due_pending_query exStorePoll 10).map (fun r => r.scheduledTime)) := by
  refine ⟨rfl, ?_⟩
  intro hs
  have hs' : List.Sorted (fun a b => a ≤ b) ([10, 5] : List Nat) := hs
  rw [List.sorted_cons] at hs'
  have h105 : (10 : Nat) ≤ 5 := hs'.1 5 (by simp)
  omega

/-- Claim C3 amended: both due queries return exactly the eligible reminders
(status PENDING with scheduled time at or before now for the poller, status
DUE with an existing medication for the stream) in store row order — each
result is a sublist of the stored rows, not a scheduled-time sort — and the
stream tick emits its payloads in exactly that query order. -/
theorem C3_amended (st : Store) (now : Nat) :
    List.Sublist (due_pending_query st now) st.reminders ∧
    (∀ r, r ∈ due_pending_query st now ↔
      r ∈ st.reminders ∧ r.status = .pending ∧ r.scheduledTime ≤ now) ∧
    List.Sublist (due_stream_query st) st.reminders ∧
    (∀ r, r ∈ due_stream_query st ↔
      r ∈ st.reminders ∧ r.status = .due ∧ ∃ m ∈ st.medications, m.id = r.medicationId) ∧
    (notification_tick st).1 = (due_stream_query st).map (fun r =>
      match find_medication st r.medicationId with
      | some med => stream_event_payload r med
      | none => []) := by
  refine ⟨List.filter_sublist _, ?_, List.filter_sublist _, ?_, rfl⟩
  · intro r
    simp [due_pending_query, List.mem_filter, and_assoc]
  · intro r
    simp [due_stream_query, List.mem_filter, List.any_eq_true, and_assoc]

/- Helper lemmas for the subscription registry. -/

theorem update_first_filter (E : String) (g : PushSubscription → PushSubscription)
    (hg : ∀ s, (g s).endpoint = s.endpoint) :
    ∀ subs : List PushSubscription,
      (subs.filter (fun s => s.endpoint == E)).length ≤ 1 →
      (∃ s ∈ subs, (s.endpoint == E) = true) →
      ∃ s₀ ∈ subs, (s₀.endpoint == E) = true ∧
        (update_first_sub E g subs).filter (fun s => s.endpoint == E) = [g s₀] := by
  intro subs
  induction subs with
  | nil =>
    intro _ hex
    rcases hex with ⟨s, hs, _⟩
    cases hs
  | cons a rest ih =>
    intro hlen hex
    by_cases ha : (a.endpoint == E) = true
    · refine ⟨a, List.mem_cons_self a rest, ha, ?_⟩
      have hga : ((g a).endpoint == E) = true := by rw [hg]; exact ha
      have hrest : rest.filter (fun s => s.endpoint == E) = [] := by
        rw [List.filter_cons_of_pos (p := fun (s : PushSubscription) => s.endpoint == E) ha] at hlen
        simp only [List.length_cons] at hlen
        exact List.length_eq_zero.mp (by omega)
      simp only [update_first_sub, ha, if_true]
      rw [List.filter_cons_of_pos (p := fun (s : PushSubscription) => s.endpoint == E) hga, hrest]
    · have ha' : (a.endpoint == E) = false := by simpa using ha
      have hex' : ∃ s ∈ rest, (s.endpoint == E) = true := by
        rcases hex with ⟨s, hs, hmatch⟩
        rcases List.mem_cons.mp hs with h1 | h2
        · subst h1; rw [hmatch] at ha'; cases ha'
        · exact ⟨s, h2, hmatch⟩
      have hlen' : (rest.filter (fun s => s.endpoint == E)).length ≤ 1 := by
        rwa [List.filter_cons_of_neg (p := fun (s : PushSubscription) => s.endpoint == E) (by simp [ha'])] at hlen
      rcases ih hlen' hex' with ⟨s₀, hmem, hm, heq⟩
      refine ⟨s₀, List.mem_cons_of_mem a hmem, hm, ?_⟩
      simp only [update_first_sub, ha', Bool.false_eq_true, if_false]
      rw [List.filter_cons_of_neg (p := fun (s : PushSubscription) => s.endpoint == E) (by simp [ha']), heq]

theorem subscribe_endpoint_filter (u : Nat) (E : String) (keys : SubscriptionKeys)
    (st : Store) (h : (st.subs.filter (fun s => s.endpoint == E)).length ≤ 1) :
    ∃ i, (subscribe u E keys st).subs.filter (fun s => s.endpoint == E) =
      [⟨i, u, E, keys.p256dh.getD "", keys.auth.getD ""⟩] := by
  unfold subscribe
  by_cases hany : (st.subs.any (fun s => s.endpoint == E)) = true
  · simp only [hany, if_true]
    have hex : ∃ s ∈ st.subs, (s.endpoint == E) = true := List.any_eq_true.mp hany
    rcases update_first_filter E (overwrite_sub u keys) (fun s => rfl) st.subs h hex with
      ⟨s₀, _, hm, heq⟩
    refine ⟨s₀.id, ?_⟩
    rw [heq]
    have hE : s₀.endpoint = E := by simpa using hm
    simp [overwrite_sub, hE]
  · have hany' : (st.subs.any (fun s => s.endpoint == E)) = false := by simpa using hany
    simp only [hany', Bool.false_eq_true, if_false]
    have hnone : st.subs.filter (fun s => s.endpoint == E) = [] := by
      rw [List.filter_eq_nil_iff]
      intro s hs
      have := List.any_eq_false.mp hany' s hs
      simpa using this
    refine ⟨next_sub_id st.subs, ?_⟩
    rw [List.filter_append, hnone, List.nil_append]
    simp [List.filter]

/-- Claim C7: registering a subscription for a user with a fresh or existing
endpoint leaves exactly one row for that endpoint, owned by that user with
those keys, and it is returned when that user queries their subscriptions;
re-registering the same endpoint with different keys (even by another user)
overwrites owner and keys in place, still leaving exactly one row. -/
theorem C7_subscribe_roundtrip (st : Store) (E : String) (u uB : Nat)
    (k1 k2 k1B k2B : Option String)
    (h : (st.subs.filter (fun s => s.endpoint == E)).length ≤ 1) :
    (((get_user_push_subscriptions (subscribe u E ⟨k1, k2⟩ st) u).filter
        (fun s => s.endpoint == E)).map (fun s => (s.p256dh_key, s.auth_key)) =
      [(k1.getD "", k2.getD "")]) ∧
    ((subscribe u E ⟨k1, k2⟩ st).subs.filter (fun s => s.endpoint == E)).length = 1 ∧
    (((subscribe uB E ⟨k1B, k2B⟩ (subscribe u E ⟨k1, k2⟩ st)).subs.filter
        (fun s => s.endpoint == E)).map (fun s => (s.userId, s.p256dh_key, s.auth_key)) =
      [(uB, k1B.getD "", k2B.getD "")]) := by
  obtain ⟨i, h1⟩ := subscribe_endpoint_filter u E ⟨k1, k2⟩ st h
  have hcomm : (get_user_push_subscriptions (subscribe u E ⟨k1, k2⟩ st) u).filter
      (fun s => s.endpoint == E) =
      ((subscribe u E ⟨k1, k2⟩ st).subs.filter (fun s => s.endpoint == E)).filter
      (fun s => s.userId == u) := by
    unfold get_user_push_subscriptions
    rw [List.filter_filter, List.filter_filter]
    apply List.filter_congr
    intro s _
    exact Bool.and_comm _ _
  refine ⟨?_, ?_, ?_⟩
  · rw [hcomm, h1]
    simp
  · rw [h1]
    rfl
  · have h2 : ((subscribe u E ⟨k1, k2⟩ st).subs.filter (fun s => s.endpoint == E)).length ≤ 1 := by
      rw [h1]; simp
    obtain ⟨j, h3⟩ := subscribe_endpoint_filter uB E ⟨k1B, k2B⟩ (subscribe u E ⟨k1, k2⟩ st) h2
    rw [h3]
    rfl

/-- Witness for C7: register endpoint E for user 1 with keys A and B, then
re-register it for user 2 with keys A2 and B2, starting from a store with no
subscriptions. -/
theorem C7_witness :
    (((get_user_push_subscriptions (subscribe 1 "E" ⟨some "A", some "B"⟩ exStoreSub) 1).filter
        (fun s => s.endpoint == "E")).map (fun s => (s.p256dh_key, s.auth_key)) =
      [("A", "B")]) ∧
    (((subscribe 2 "E" ⟨some "A2", some "B2"⟩
          (subscribe 1 "E" ⟨some "A", some "B"⟩ exStoreSub)).subs.filter
        (fun s => s.endpoint == "E")).map (fun s => (s.userId, s.p256dh_key, s.auth_key)) =
      [(2, "A2", "B2")]) := by
  have h := C7_subscribe_roundtrip exStoreSub "E" 1 2 (some "A") (some "B")
    (some "A2") (some "B2") (by decide)
  exact ⟨h.1, h.2.2⟩

/- Helper lemmas about the push fan-out loop. -/

theorem push_loop_events (v : Bool) (t : String → PushOutcome) :
    ∀ subs : List PushSubscription,
    (push_loop v t subs).2.2 = subs.map (fun s => Event.pushAttempt s.endpoint) := by
  intro subs
  induction subs with
  | nil => rfl
  | cons s rest ih =>
    cases hr : send_push_notification v t s.endpoint with
    | ok b => simp [push_loop, hr, ih]
    | error e => simp [push_loop, hr, ih]

theorem push_loop_expired (v : Bool) (t : String → PushOutcome) :
    ∀ subs : List PushSubscription,
    (push_loop v t subs).2.1 = subs.filter (fun s => errClassified v t s.endpoint) := by
  intro subs
  induction subs with
  | nil => rfl
  | cons s rest ih =>
    cases hr : send_push_notification v t s.endpoint with
    | ok b =>
      have hc : errClassified v t s.endpoint = false := by simp [errClassified, hr]
      simp [push_loop, hr, ih, List.filter_cons, hc]
    | error e =>
      have hc : errClassified v t s.endpoint = classify_expired e := by
        simp [errClassified, hr]
      cases hce : classify_expired e with
      | true => simp [push_loop, hr, ih, List.filter_cons, hc, hce]
      | false => simp [push_loop, hr, ih, List.filter_cons, hc, hce]

theorem push_loop_count (v : Bool) (t : String → PushOutcome) :
    ∀ subs : List PushSubscription,
    (push_loop v t subs).1 = subs.countP (fun s => sendOk v t s.endpoint) := by
  intro subs
  induction subs with
  | nil => rfl
  | cons s rest ih =>
    cases hr : send_push_notification v t s.endpoint with
    | ok b =>
      have hc : sendOk v t s.endpoint = true := by simp [sendOk, hr]
      simp [push_loop, hr, ih, List.countP_cons, hc]
    | error e =>
      have hc : sendOk v t s.endpoint = false := by simp [sendOk, hr]
      simp [push_loop, hr, ih, List.countP_cons, hc]

theorem send_push_to_user_events (v : Bool) (t : String → PushOutcome) (db : DB) (u : User) :
    (send_push_to_user v t db u).2.1 =
      (get_user_push_subscriptions db.cur u.id).map (fun s => Event.pushAttempt s.endpoint) := by
  unfold send_push_to_user
  by_cases hemp : (get_user_push_subscriptions db.cur u.id).isEmpty = true
  · have hnil : get_user_push_subscriptions db.cur u.id = [] := by
      simpa [List.isEmpty_iff] using hemp
    simp [hemp, hnil]
  · have hemp' : (get_user_push_subscriptions db.cur u.id).isEmpty = false := by
      simpa using hemp
    simp [hemp', push_loop_events]

theorem send_push_to_user_cur (v : Bool) (t : String → PushOutcome) (db : DB) (u : User) :
    (send_push_to_user v t db u).1.cur.reminders = db.cur.reminders ∧
    (send_push_to_user v t db u).1.cur.medications = db.cur.medications ∧
    (send_push_to_user v t db u).1.cur.users = db.cur.users ∧
    ((send_push_to_user v t db u).1.committed = db.committed ∨
     (send_push_to_user v t db u).1.committed = (send_push_to_user v t db u).1.cur) := by
  unfold send_push_to_user
  by_cases hemp : (get_user_push_subscriptions db.cur u.id).isEmpty = true
  · simp [hemp]
  · have hemp' : (get_user_push_subscriptions db.cur u.id).isEmpty = false := by
      simpa using hemp
    by_cases hexp : (push_loop v t (get_user_push_subscriptions db.cur u.id)).2.1.isEmpty = true
    · simp [hemp', hexp]
    · have hexp' : (push_loop v t (get_user_push_subscriptions db.cur u.id)).2.1.isEmpty =
          false := by simpa using hexp
      simp [hemp', hexp', DB.commit]

theorem send_push_to_user_no_expired (v : Bool) (t : String → PushOutcome) (db : DB) (u : User)
    (h : ∀ s ∈ get_user_push_subscriptions db.cur u.id, errClassified v t s.endpoint = false) :
    (send_push_to_user v t db u).1 = db := by
  unfold send_push_to_user
  by_cases hemp : (get_user_push_subscriptions db.cur u.id).isEmpty = true
  · simp [hemp]
  · have hemp' : (get_user_push_subscriptions db.cur u.id).isEmpty = false := by
      simpa using hemp
    have hexp : (push_loop v t (get_user_push_subscriptions db.cur u.id)).2.1 = [] := by
      rw [push_loop_expired]
      exact List.filter_eq_nil_iff.mpr (fun s hs => by simp [h s hs])
    simp [hemp', hexp]

/- Helper lemmas about the expiry classification strings. -/

theorem string_data_append (a b : String) : (a ++ b).data = a.data ++ b.data := rfl

theorem containsSub_append_right (n : List Char) :
    ∀ (a b : List Char), containsSub n b = true → containsSub n (a ++ b) = true := by
  intro a
  induction a with
  | nil => intro b h; simpa using h
  | cons c a ih =>
    intro b h
    have hstep : containsSub n (c :: (a ++ b)) =
        (leadsWith n (c :: (a ++ b)) || containsSub n (a ++ b)) := rfl
    rw [List.cons_append, hstep, ih b h, Bool.or_true]

theorem classify_expired_of_details (ep d : String)
    (h : containsSub "expired".data (lowerChars d.data) = true) :
    classify_expired ⟨ep, d⟩ = true := by
  have hne : (d == "") = false := by
    cases hd : (d == "") with
    | false => rfl
    | true =>
      exfalso
      have hde : d = "" := by simpa using hd
      rw [hde] at h
      exact absurd h (by decide)
  unfold classify_expired
  have hdata : lowerChars (PushNotificationError.toStr ⟨ep, d⟩).data =
      lowerChars ("Failed to send push to " ++ ep.take 50 ++ "...").data ++
      (lowerChars " | Details: ".data ++ lowerChars d.data) := by
    unfold PushNotificationError.toStr
    simp only [hne, Bool.false_eq_true, if_false]
    unfold lowerChars
    simp [string_data_append, List.map_append, List.append_assoc]
  rw [hdata]
  rw [containsSub_append_right _ _ _ (containsSub_append_right _ _ _ h)]
  simp

/- Helper lemmas about lists with unique ids. -/

theorem nodup_map_inj {α β : Type} (f : α → β) :
    ∀ {l : List α}, (l.map f).Nodup → ∀ {x : α}, x ∈ l → ∀ {y : α}, y ∈ l →
    f x = f y → x = y := by
  intro l
  induction l with
  | nil => intro _ x hx; cases hx
  | cons a rest ih =>
    intro hnd x hx y hy hf
    rw [List.map_cons] at hnd
    obtain ⟨hna, hnr⟩ := List.nodup_cons.mp hnd
    rcases List.mem_cons.mp hx with hx1 | hx2
    · rcases List.mem_cons.mp hy with hy1 | hy2
      · rw [hx1, hy1]
      · exfalso
        apply hna
        rw [show f a = f y from hx1 ▸ hf]
        exact List.mem_map_of_mem f hy2
    · rcases List.mem_cons.mp hy with hy1 | hy2
      · exfalso
        apply hna
        rw [show f a = f x from (hy1 ▸ hf).symm]
        exact List.mem_map_of_mem f hx2
      · exact ih hnr hx2 hy2 hf

theorem filter_eq_single_of_pred {l : List PushSubscription} {k : PushSubscription}
    (hnd : (l.map (fun s => s.id)).Nodup) (hk : k ∈ l)
    {p : PushSubscription → Bool} (hp : ∀ s ∈ l, p s = (s.id == k.id)) :
    l.filter p = [k] := by
  induction l with
  | nil => cases hk
  | cons a rest ih =>
    rw [List.map_cons] at hnd
    obtain ⟨hna, hnr⟩ := List.nodup_cons.mp hnd
    rcases List.mem_cons.mp hk with h1 | h2
    · have hpa : p a = true := by
        rw [hp a (List.mem_cons_self a rest), ← h1]
        simp
      rw [List.filter_cons_of_pos (p := p) hpa]
      have hrest : rest.filter p = [] := by
        rw [List.filter_eq_nil_iff]
        intro s hs
        rw [hp s (List.mem_cons_of_mem a hs)]
        intro hb
        apply hna
        rw [show a.id = s.id from by rw [← h1]; exact ((by simpa using hb : s.id = k.id)).symm]
        exact List.mem_map_of_mem _ hs
      rw [hrest, ← h1]
    · have hpa : p a = false := by
        rw [hp a (List.mem_cons_self a rest)]
        cases hb : (a.id == k.id) with
        | false => rfl
        | true =>
          exfalso
          apply hna
          rw [show a.id = k.id from by simpa using hb]
          exact List.mem_map_of_mem _ h2
      rw [List.filter_cons_of_neg (p := p) (by simp [hpa])]
      exact ih hnr h2 (fun s hs => hp s (List.mem_cons_of_mem a hs))

theorem length_filter_split {α : Type} (p : α → Bool) :
    ∀ l : List α, (l.filter p).length + (l.filter (fun a => !(p a))).length = l.length := by
  intro l
  induction l with
  | nil => rfl
  | cons a rest ih =>
    by_cases hp : p a = true
    · rw [List.filter_cons_of_pos (p := p) hp,
        List.filter_cons_of_neg (p := fun x => !(p x)) (by simp [hp])]
      simp only [List.length_cons]
      omega
    · have hp' : p a = false := by simpa using hp
      rw [List.filter_cons_of_neg (p := p) (by simp [hp']),
        List.filter_cons_of_pos (p := fun x => !(p x)) (by simp [hp'])]
      simp only [List.length_cons]
      omega

/-- Counterexample to C4 as stated: the worker classifies expiry by substring
match on the exception message, so a transient transport error whose message
contains the word expired deletes the subscription even though the failure is
not an endpoint-gone 404 or 410. -/
theorem C4_counterexample :
    exTransportCex "endpoint-one" = PushOutcome.webPushErr "connection expired" ∧
    (send_push_to_user true exTransportCex ⟨exStoreCex, exStoreCex⟩ exUser).1.cur.subs =
      [] := by
  exact ⟨rfl, by decide⟩

/-- Claim C4 amended: with VAPID configured, fan-out over the subscriptions of
a user where exactly subscription k fails with an endpoint-gone (410) error
attempts every subscription, succeeds on all but k, deletes exactly k and
retains the rest; and a transport error deletes nothing provided the worker
does not classify it as expired, i.e. its exception message (which embeds the
endpoint prefix and the error details) lacks the substrings expired and
not found case-insensitively. -/
theorem C4_amended (st : Store) (u : User) (t1 t2 : String → PushOutcome)
    (k : PushSubscription)
    (hnd : (st.subs.map (fun s => s.id)).Nodup)
    (hk : k ∈ get_user_push_subscriptions st u.id)
    (hgone : t1 k.endpoint = .gone410)
    (hrest : ∀ s ∈ get_user_push_subscriptions st u.id,
      (s.id == k.id) = false → t1 s.endpoint = .delivered)
    (hbenign : ∀ s ∈ get_user_push_subscriptions st u.id,
      errClassified true t2 s.endpoint = false) :
    (send_push_to_user true t1 ⟨st, st⟩ u).2.1 =
      (get_user_push_subscriptions st u.id).map (fun s => Event.pushAttempt s.endpoint) ∧
    (send_push_to_user true t1 ⟨st, st⟩ u).2.2 =
      (get_user_push_subscriptions st u.id).length - 1 ∧
    (send_push_to_user true t1 ⟨st, st⟩ u).1.cur.subs =
      st.subs.filter (fun s => !(k.id == s.id)) ∧
    (send_push_to_user true t2 ⟨st, st⟩ u).1 = ⟨st, st⟩ := by
  have hndU : ((get_user_push_subscriptions st u.id).map (fun s => s.id)).Nodup := by
    apply List.Nodup.sublist _ hnd
    exact List.Sublist.map _ (List.filter_sublist _)
  have hclass : errClassified true t1 k.endpoint = true := by
    simp only [errClassified, send_push_notification, hgone, Bool.not_true,
      Bool.false_eq_true, if_false]
    exact classify_expired_of_details _ _ (by decide)
  have hpred : ∀ s ∈ get_user_push_subscriptions st u.id,
      errClassified true t1 s.endpoint = (s.id == k.id) := by
    intro s hs
    by_cases hb : (s.id == k.id) = true
    · have hsk : s = k := nodup_map_inj _ hndU hs hk (by simpa using hb)
      rw [hsk, hclass]
      simp
    · have hb' : (s.id == k.id) = false := by simpa using hb
      rw [hb']
      simp [errClassified, send_push_notification, hrest s hs hb']
  have hexp : (push_loop true t1 (get_user_push_subscriptions st u.id)).2.1 = [k] := by
    rw [push_loop_expired]
    exact filter_eq_single_of_pred hndU hk hpred
  have hcnt : (push_loop true t1 (get_user_push_subscriptions st u.id)).1 =
      (get_user_push_subscriptions st u.id).length - 1 := by
    rw [push_loop_count]
    have hok : ∀ s ∈ get_user_push_subscriptions st u.id,
        sendOk true t1 s.endpoint = !(s.id == k.id) := by
      intro s hs
      by_cases hb : (s.id == k.id) = true
      · have hsk : s = k := nodup_map_inj _ hndU hs hk (by simpa using hb)
        rw [hsk]
        simp [sendOk, send_push_notification, hgone]
      · have hb' : (s.id == k.id) = false := by simpa using hb
        rw [hb']
        simp [sendOk, send_push_notification, hrest s hs hb']
    rw [List.countP_eq_length_filter, List.filter_congr hok]
    have hone : (get_user_push_subscriptions st u.id).filter (fun s => s.id == k.id) =
        [k] := filter_eq_single_of_pred hndU hk (fun s _ => rfl)
    have hsplit := length_filter_split (fun s => s.id == k.id)
      (get_user_push_subscriptions st u.id)
    rw [hone] at hsplit
    simp only [List.length_singleton] at hsplit
    omega
  have hne : (get_user_push_subscriptions st u.id).isEmpty = false := by
    cases hsE : (get_user_push_subscriptions st u.id).isEmpty with
    | false => rfl
    | true =>
      exfalso
      rw [List.isEmpty_iff.mp hsE] at hk
      cases hk
  refine ⟨send_push_to_user_events true t1 ⟨st, st⟩ u, ?_, ?_,
    send_push_to_user_no_expired true t2 ⟨st, st⟩ u hbenign⟩
  · unfold send_push_to_user
    simp [hne, hcnt]
  · unfold send_push_to_user
    simp [hne, hexp, DB.commit]

/-- Witness for the amended C4: two subscriptions of user 1, endpoint-two
gone (410), endpoint-one delivered; and a benign transient failure for the
second run. -/
theorem C4_witness :
    (send_push_to_user true exTransportGone ⟨exStoreFan, exStoreFan⟩ exUser).2.1 =
      (get_user_push_subscriptions exStoreFan exUser.id).map
        (fun s => Event.pushAttempt s.endpoint) ∧
    (send_push_to_user true exTransportGone ⟨exStoreFan, exStoreFan⟩ exUser).2.2 =
      (get_user_push_subscriptions exStoreFan exUser.id).length - 1 ∧
    (send_push_to_user true exTransportGone ⟨exStoreFan, exStoreFan⟩ exUser).1.cur.subs =
      exStoreFan.subs.filter (fun s => !(exSubTwo.id == s.id)) ∧
    (send_push_to_user true exTransportBoom ⟨exStoreFan, exStoreFan⟩ exUser).1 =
      ⟨exStoreFan, exStoreFan⟩ :=
  C4_amended exStoreFan exUser exTransportGone exTransportBoom exSubTwo
    (by decide) (by decide) (by decide) (by decide) (by decide)

/-- Claim C6: the outcome of the email channel never flows into the state of
one reminder processing pass — the whole result of process_reminder is
identical for any two email environments (so an EmailDeliveryError neither
rolls back the DUE transition nor blocks push) — and on the success path the
reminder ends DUE with the email attempt (when enabled) followed by one push
attempt per subscription of the user. -/
theorem C6_email_failure_isolated (e1 e2 : EmailEnv) (p : PushEnv) (r : Reminder)
    (ws : WState) :
    process_reminder e1 p r ws = process_reminder e2 p r ws ∧
    (∀ med user, find_medication ws.db.cur r.medicationId = some med →
      medication_user ws.db.cur med = some user →
      (ws.db.cur.statusOf r.id).isSome = true →
      ∃ ws1, process_reminder e1 p r ws = .ok ws1 ∧
        ws1.db.cur.statusOf r.id = some .due ∧
        ws1.events = ws.events ++
          (if user.emailNotifications && optTruthy user.email
           then [Event.emailAttempt (optOr user.email "")] else []) ++
          (get_user_push_subscriptions ws.db.cur user.id).map
            (fun s => Event.pushAttempt s.endpoint)) := by
  constructor
  · cases hf : find_medication ws.db.cur r.medicationId with
    | none => simp [process_reminder, hf]
    | some med =>
      cases hu : medication_user ws.db.cur med with
      | none => simp [process_reminder, hf, hu]
      | some user => simp [process_reminder, hf, hu]
  · intro med user hf hu hsome
    simp only [process_reminder, hf, hu]
    refine ⟨_, rfl, ?_, ?_⟩
    · have hcur := (send_push_to_user_cur p.vapidConfigured p.transport
        { ws.db with cur := ws.db.cur.setStatus r.id .due } user).1
      show Store.statusOf _ r.id = some .due
      unfold Store.statusOf
      rw [hcur]
      show statusOfList r.id (setStatusList r.id .due ws.db.cur.reminders) = some .due
      exact statusOfList_set_self hsome
    · rw [send_push_to_user_events]
      rfl

/-- Witness for C6: processing reminder 1 with the mock email environment and
with a failing SMTP environment gives the same state, status DUE, one email
attempt and one push attempt. -/
theorem C6_witness :
    process_reminder exEmailOff exPushEnv ⟨1, 1, 10, .pending⟩
        ⟨⟨exStorePoll, exStorePoll⟩, [], 0⟩ =
      process_reminder exEmailFail exPushEnv ⟨1, 1, 10, .pending⟩
        ⟨⟨exStorePoll, exStorePoll⟩, [], 0⟩ ∧
    ∃ ws1, process_reminder exEmailOff exPushEnv ⟨1, 1, 10, .pending⟩
        ⟨⟨exStorePoll, exStorePoll⟩, [], 0⟩ = .ok ws1 ∧
      ws1.db.cur.statusOf 1 = some .due ∧
      ws1.events = [] ++
        (if exUser.emailNotifications && optTruthy exUser.email
         then [Event.emailAttempt (optOr exUser.email "")] else []) ++
        (get_user_push_subscriptions exStorePoll exUser.id).map
          (fun s => Event.pushAttempt s.endpoint) := by
  have h := C6_email_failure_isolated exEmailOff exEmailFail exPushEnv ⟨1, 1, 10, .pending⟩
    ⟨⟨exStorePoll, exStorePoll⟩, [], 0⟩
  exact ⟨h.1, h.2 exMedHigh exUser (by decide) (by decide) (by decide)⟩

/- Helper lemmas for the poller characterization. -/

theorem mem_events_of {st : Store} {e : Event} :
    ∀ {L : List Reminder} {r : Reminder}, r ∈ L → e ∈ reminder_events st r →
    e ∈ events_of st L := by
  intro L
  induction L with
  | nil => intro r h; cases h
  | cons a rest ih =>
    intro r hr he
    rcases List.mem_cons.mp hr with h1 | h2
    · subst h1
      exact List.mem_append_left _ he
    · exact List.mem_append_right _ (ih h2 he)

theorem process_all_char (email : EmailEnv) (push : PushEnv) (st0 : Store)
    (hpush : ∀ ep, errClassified push.vapidConfigured push.transport ep = false) :
    ∀ (L : List Reminder) (ws : WState),
      ws.db.cur.medications = st0.medications →
      ws.db.cur.users = st0.users →
      ws.db.cur.subs = st0.subs →
      (∀ r ∈ L, (find_medication st0 r.medicationId).isSome = true) →
      ∃ ws1, process_all email push L ws = .ok ws1 ∧
        ws1.db.cur.medications = st0.medications ∧
        ws1.db.cur.users = st0.users ∧
        ws1.db.cur.subs = st0.subs ∧
        ws1.db.cur.reminders =
          L.foldl (fun a r => setStatusList r.id ReminderStatus.due a) ws.db.cur.reminders ∧
        ws1.events = ws.events ++ events_of st0 L := by
  intro L
  induction L with
  | nil =>
    intro ws hm hu hs _
    exact ⟨ws, rfl, hm, hu, hs, rfl, by simp [events_of]⟩
  | cons r rest ih =>
    intro ws hm hu hs hf
    have hf0 : (find_medication st0 r.medicationId).isSome = true :=
      hf r (List.mem_cons_self r rest)
    obtain ⟨med, hmed0⟩ := Option.isSome_iff_exists.mp hf0
    have hmed : find_medication ws.db.cur r.medicationId = some med := by
      unfold find_medication at hmed0 ⊢
      rw [hm]
      exact hmed0
    have huser : medication_user ws.db.cur med = medication_user st0 med := by
      unfold medication_user
      cases med.userId with
      | none => rfl
      | some uid => rw [hu]
    cases hus : medication_user st0 med with
    | none =>
      have hstep : process_reminder email push r ws =
          .ok (⟨⟨ws.db.cur.setStatus r.id .due, ws.db.committed⟩, ws.events,
            ws.count + 1⟩ : WState) := by
        simp [process_reminder, hmed, huser, hus]
      obtain ⟨ws1, hrun, hm1, hu1, hs1, hrem1, hev1⟩ := ih
        (⟨⟨ws.db.cur.setStatus r.id .due, ws.db.committed⟩, ws.events, ws.count + 1⟩ : WState)
        (by simpa using hm) (by simpa using hu) (by simpa using hs)
        (fun rx hrx => hf rx (List.mem_cons_of_mem r hrx))
      refine ⟨ws1, ?_, hm1, hu1, hs1, ?_, ?_⟩
      · simp only [process_all, hstep]
        exact hrun
      · rw [hrem1, List.foldl_cons]
        rfl
      · rw [hev1]
        have hre : reminder_events st0 r = [] := by
          simp [reminder_events, hmed0, hus]
        simp [events_of, hre]
    | some user =>
      have hnoexp := send_push_to_user_no_expired push.vapidConfigured push.transport
        ⟨ws.db.cur.setStatus r.id .due, ws.db.committed⟩ user
        (fun s _ => hpush s.endpoint)
      have hevents := send_push_to_user_events push.vapidConfigured push.transport
        ⟨ws.db.cur.setStatus r.id .due, ws.db.committed⟩ user
      have hstep : process_reminder email push r ws =
          .ok (⟨⟨ws.db.cur.setStatus r.id .due, ws.db.committed⟩,
            ws.events ++
              ((if user.emailNotifications && optTruthy user.email
                then [Event.emailAttempt (optOr user.email "")] else []) ++
               (get_user_push_subscriptions (ws.db.cur.setStatus r.id .due) user.id).map
                 (fun s => Event.pushAttempt s.endpoint)),
            ws.count + 1⟩ : WState) := by
        simp only [process_reminder, hmed, huser, hus]
        rw [hnoexp, hevents]
        simp [List.append_assoc]
      obtain ⟨ws1, hrun, hm1, hu1, hs1, hrem1, hev1⟩ := ih
        (⟨⟨ws.db.cur.setStatus r.id .due, ws.db.committed⟩,
          ws.events ++
            ((if user.emailNotifications && optTruthy user.email
              then [Event.emailAttempt (optOr user.email "")] else []) ++
             (get_user_push_subscriptions (ws.db.cur.setStatus r.id .due) user.id).map
               (fun s => Event.pushAttempt s.endpoint)),
          ws.count + 1⟩ : WState)
        (by simpa using hm) (by simpa using hu) (by simpa using hs)
        (fun rx hrx => hf rx (List.mem_cons_of_mem r hrx))
      refine ⟨ws1, ?_, hm1, hu1, hs1, ?_, ?_⟩
      · simp only [process_all, hstep]
        exact hrun
      · rw [hrem1, List.foldl_cons]
        rfl
      · rw [hev1]
        have hre : reminder_events st0 r =
            (if user.emailNotifications && optTruthy user.email
             then [Event.emailAttempt (optOr user.email "")] else []) ++
            (get_user_push_subscriptions st0 user.id).map
              (fun s => Event.pushAttempt s.endpoint) := by
          simp [reminder_events, hmed0, hus]
        have hsubsEq : get_user_push_subscriptions (ws.db.cur.setStatus r.id .due) user.id =
            get_user_push_subscriptions st0 user.id := by
          unfold get_user_push_subscriptions
          show ws.db.cur.subs.filter _ = st0.subs.filter _
          rw [hs]
        simp [events_of, hre, hsubsEq, List.append_assoc]

/-- Claim C2: under a tick in which every due reminder has its medication row
and no push attempt is classified as expired, every reminder that is PENDING
and scheduled at or before now ends the tick with status DUE in the committed
store, and, when the owning user exists, an email attempt is made when the
user opted in and has an address, and a push attempt is made to every
registered subscription of the user. -/
theorem C2_poller_tick (email : EmailEnv) (push : PushEnv) (st : Store) (now : Nat)
    (hmed : ∀ r ∈ st.reminders, r.status = .pending → r.scheduledTime ≤ now →
      (find_medication st r.medicationId).isSome = true)
    (hpush : ∀ ep, errClassified push.vapidConfigured push.transport ep = false) :
    ∀ r ∈ st.reminders, r.status = .pending → r.scheduledTime ≤ now →
      (check_reminders email push st now).1.statusOf r.id = some .due ∧
      (∀ med user, find_medication st r.medicationId = some med →
        medication_user st med = some user →
        ((user.emailNotifications && optTruthy user.email) = true →
          Event.emailAttempt (optOr user.email "") ∈
            (check_reminders email push st now).2.1) ∧
        (∀ s ∈ st.subs, s.userId = user.id →
          Event.pushAttempt s.endpoint ∈ (check_reminders email push st now).2.1)) := by
  have hq : ∀ r ∈ due_pending_query st now,
      (find_medication st r.medicationId).isSome = true := by
    intro r hr
    unfold due_pending_query at hr
    obtain ⟨hmem, hpred⟩ := List.mem_filter.mp hr
    obtain ⟨hp, ht⟩ := (Bool.and_eq_true _ _).mp hpred
    exact hmed r hmem (by simpa using hp) (by simpa using ht)
  obtain ⟨ws1, hrun, hm1, hu1, hs1, hrem1, hev1⟩ := process_all_char email push st hpush
    (due_pending_query st now) ⟨⟨st, st⟩, [], 0⟩ rfl rfl rfl hq
  have hcheck : check_reminders email push st now = (ws1.db.cur, ws1.events, ws1.count) := by
    unfold check_reminders
    rw [hrun]
    rfl
  intro r hr hp ht
  have hrd : r ∈ due_pending_query st now := by
    unfold due_pending_query
    rw [List.mem_filter]
    exact ⟨hr, by simp [hp, ht]⟩
  constructor
  · rw [hcheck]
    show ws1.db.cur.statusOf r.id = some .due
    unfold Store.statusOf
    rw [hrem1]
    exact statusOfList_foldl_set_mem _ _ r hrd (statusOfList_isSome_of_mem hr)
  · intro med user hfm hmu
    have hin : ∀ e ∈ reminder_events st r, e ∈ (check_reminders email push st now).2.1 := by
      intro e he
      rw [hcheck]
      show e ∈ ws1.events
      rw [hev1]
      exact List.mem_append_right _ (mem_events_of hrd he)
    constructor
    · intro hcond
      exact hin _ (by simp [reminder_events, hfm, hmu, hcond])
    · intro s hs hus
      refine hin _ ?_
      simp only [reminder_events, hfm, hmu]
      apply List.mem_append_right
      apply List.mem_map_of_mem
      unfold get_user_push_subscriptions
      rw [List.mem_filter]
      exact ⟨hs, by simp [hus]⟩

/-- Witness for C2 at a concrete store: the pending reminder 1 is DUE after
the tick, its owner got an email attempt and a push attempt to the registered
endpoint. -/
theorem C2_witness :
    (check_reminders exEmailOff exPushEnv exStorePoll 10).1.statusOf 1 = some .due ∧
    Event.emailAttempt "alice@example.com" ∈
      (check_reminders exEmailOff exPushEnv exStorePoll 10).2.1 ∧
    Event.pushAttempt "endpoint-one" ∈
      (check_reminders exEmailOff exPushEnv exStorePoll 10).2.1 := by
  have h := C2_poller_tick exEmailOff exPushEnv exStorePoll 10
    (by decide) (fun ep => rfl) ⟨1, 1, 10, .pending⟩ (by decide) rfl (by decide)
  refine ⟨h.1, ?_, ?_⟩
  · exact (h.2 exMedHigh exUser (by decide) (by decide)).1 (by decide)
  · exact (h.2 exMedHigh exUser (by decide) (by decide)).2 exSubOne (by decide) rfl

/- Helper lemmas for status monotonicity. -/

theorem stepMono_refl (a b : ReminderStatus) (base : List Reminder) : StepMono a b base base :=
  fun _ => Or.inl rfl

theorem stepMono_set {a b : ReminderStatus} {base curL : List Reminder}
    (h : StepMono a b base curL) {rid : Nat}
    (hp : statusOfList rid base = some a) :
    StepMono a b base (setStatusList rid b curL) := by
  intro rid'
  by_cases he : rid' = rid
  · subst he
    right
    refine ⟨hp, ?_⟩
    apply statusOfList_set_self
    rcases h rid' with h1 | h2
    · rw [h1, hp]; rfl
    · rw [h2.2]; rfl
  · rw [statusOfList_set_ne he]
    exact h rid'

theorem stepMono_foldl {a b : ReminderStatus} {base : List Reminder} :
    ∀ L : List Reminder, (∀ r ∈ L, statusOfList r.id base = some a) →
    ∀ curL : List Reminder, StepMono a b base curL →
    StepMono a b base (L.foldl (fun x r => setStatusList r.id b x) curL) := by
  intro L
  induction L with
  | nil => intro _ curL h; exact h
  | cons r rest ih =>
    intro hL curL h
    rw [List.foldl_cons]
    exact ih (fun rx hrx => hL rx (List.mem_cons_of_mem r hrx)) _
      (stepMono_set h (hL r (List.mem_cons_self r rest)))

theorem process_reminder_mono (email : EmailEnv) (push : PushEnv) {base : List Reminder}
    (r : Reminder) (ws : WState)
    (hp : statusOfList r.id base = some .pending)
    (hc : StepMono .pending .due base ws.db.cur.reminders)
    (hco : StepMono .pending .due base ws.db.committed.reminders) :
    match process_reminder email push r ws with
    | .ok ws1 => StepMono .pending .due base ws1.db.cur.reminders ∧
        StepMono .pending .due base ws1.db.committed.reminders
    | .error ws1 => StepMono .pending .due base ws1.db.cur.reminders ∧
        StepMono .pending .due base ws1.db.committed.reminders := by
  cases hf : find_medication ws.db.cur r.medicationId with
  | none =>
    simp only [process_reminder, hf]
    exact ⟨hc, hco⟩
  | some med =>
    have h1 : StepMono .pending .due base (setStatusList r.id .due ws.db.cur.reminders) :=
      stepMono_set hc hp
    cases hus : medication_user ws.db.cur med with
    | none =>
      simp only [process_reminder, hf, hus]
      exact ⟨h1, hco⟩
    | some user =>
      simp only [process_reminder, hf, hus]
      have hcur := send_push_to_user_cur push.vapidConfigured push.transport
        ⟨ws.db.cur.setStatus r.id .due, ws.db.committed⟩ user
      constructor
      · rw [hcur.1]
        exact h1
      · rcases hcur.2.2.2 with h2 | h2
        · rw [h2]
          exact hco
        · rw [h2, hcur.1]
          exact h1

theorem process_all_mono (email : EmailEnv) (push : PushEnv) {base : List Reminder} :
    ∀ L : List Reminder, (∀ r ∈ L, statusOfList r.id base = some .pending) →
    ∀ ws : WState,
    StepMono .pending .due base ws.db.cur.reminders →
    StepMono .pending .due base ws.db.committed.reminders →
    match process_all email push L ws with
    | .ok ws1 => StepMono .pending .due base ws1.db.cur.reminders ∧
        StepMono .pending .due base ws1.db.committed.reminders
    | .error ws1 => StepMono .pending .due base ws1.db.cur.reminders ∧
        StepMono .pending .due base ws1.db.committed.reminders := by
  intro L
  induction L with
  | nil =>
    intro _ ws hc hco
    exact ⟨hc, hco⟩
  | cons r rest ih =>
    intro hL ws hc hco
    have hstep := process_reminder_mono email push r ws
      (hL r (List.mem_cons_self r rest)) hc hco
    cases hpr : process_reminder email push r ws with
    | ok ws1 =>
      simp only [hpr] at hstep
      simp only [process_all, hpr]
      exact ih (fun rx hrx => hL rx (List.mem_cons_of_mem r hrx)) ws1 hstep.1 hstep.2
    | error ws1 =>
      simp only [hpr] at hstep
      simp only [process_all, hpr]
      exact hstep

/-- Claim C8: on a store with unique reminder ids, one poller tick and one
stream tick move every status only forward along PENDING to DUE to SENT: the
poller leaves a status unchanged or moves PENDING to DUE, the stream leaves
it unchanged or moves DUE to SENT, and neither ever moves a status backward
or into TAKEN or SKIPPED. -/
theorem C8_status_monotonic (email : EmailEnv) (push : PushEnv) (st : Store) (now : Nat)
    (hnd : (st.reminders.map (fun r => r.id)).Nodup) :
    (∀ rid, statusForward (st.statusOf rid)
      ((check_reminders email push st now).1.statusOf rid)) ∧
    (∀ rid, statusForward (st.statusOf rid) ((notification_tick st).2.statusOf rid)) := by
  constructor
  · have hL : ∀ r ∈ due_pending_query st now,
        statusOfList r.id st.reminders = some .pending := by
      intro r hr
      unfold due_pending_query at hr
      obtain ⟨hmem, hpred⟩ := List.mem_filter.mp hr
      obtain ⟨hp, _⟩ := (Bool.and_eq_true _ _).mp hpred
      rw [statusOfList_of_nodup hnd hmem]
      have hps : r.status = .pending := by simpa using hp
      rw [hps]
    have hmono := process_all_mono email push (due_pending_query st now) hL
      ⟨⟨st, st⟩, [], 0⟩ (stepMono_refl _ _ _) (stepMono_refl _ _ _)
    intro rid
    unfold check_reminders
    cases hrun : process_all email push (due_pending_query st now) ⟨⟨st, st⟩, [], 0⟩ with
    | ok ws1 =>
      simp only [hrun] at hmono ⊢
      rcases hmono.1 rid with h | h
      · exact Or.inl h
      · exact Or.inr (Or.inl h)
    | error ws1 =>
      simp only [hrun] at hmono ⊢
      rcases hmono.2 rid with h | h
      · exact Or.inl h
      · exact Or.inr (Or.inl h)
  · intro rid
    have hL : ∀ r ∈ due_stream_query st, statusOfList r.id st.reminders = some .due := by
      intro r hr
      unfold due_stream_query at hr
      obtain ⟨hmem, hpred⟩ := List.mem_filter.mp hr
      obtain ⟨hp, _⟩ := (Bool.and_eq_true _ _).mp hpred
      rw [statusOfList_of_nodup hnd hmem]
      have hps : r.status = .due := by simpa using hp
      rw [hps]
    have hmono := stepMono_foldl (a := .due) (b := .sent) (due_stream_query st) hL
      st.reminders (stepMono_refl _ _ _)
    rcases hmono rid with h | h
    · exact Or.inl h
    · exact Or.inr (Or.inr h)

/-- Witness for C8: forward-only movement of reminder 1 under a concrete
poller tick and of reminder 3 under a concrete stream tick. -/
theorem C8_witness :
    statusForward (exStorePoll.statusOf 1)
      ((check_reminders exEmailOff exPushEnv exStorePoll 10).1.statusOf 1) ∧
    statusForward (exStoreStream.statusOf 3)
      ((notification_tick exStoreStream).2.statusOf 3) :=
  ⟨(C8_status_monotonic exEmailOff exPushEnv exStorePoll 10 (by decide)).1 1,
   (C8_status_monotonic exEmailOff exPushEnv exStoreStream 0 (by decide)).2 3⟩

/-- Claim C10: the stream feed is blind to which validated user opened it:
for any two tokens that validate, the first generator pass produces identical
output, namely the events of the tick over all DUE reminders of every user,
and that tick marks each such reminder SENT. -/
theorem C10_stream_user_blind (decode : String → Option String) (st : Store)
    (t1 t2 : String) (u1 u2 : User)
    (h1 : get_current_user_from_token decode st t1 = some u1)
    (h2 : get_current_user_from_token decode st t2 = some u2) :
    notification_generator_step decode t1 st = notification_generator_step decode t2 st ∧
    notification_generator_step decode t1 st =
      .events (notification_tick st).1 (notification_tick st).2 ∧
    (∀ r ∈ st.reminders, r.status = .due →
      (st.medications.any (fun m => m.id == r.medicationId)) = true →
      (∃ p ∈ (notification_tick st).1, List.lookup "id" p = some (.num r.id)) ∧
      (notification_tick st).2.statusOf r.id = some .sent) := by
  refine ⟨?_, ?_, ?_⟩
  · unfold notification_generator_step
    rw [h1, h2]
  · unfold notification_generator_step
    rw [h1]
  · intro r hr hst hmed
    have hrd : r ∈ due_stream_query st := by
      unfold due_stream_query
      rw [List.mem_filter]
      exact ⟨hr, by simp [hst, hmed]⟩
    constructor
    · have hfind : (find_medication st r.medicationId).isSome = true := by
        obtain ⟨m, hm, hbeq⟩ := List.any_eq_true.mp hmed
        unfold find_medication
        exact List.find?_isSome.mpr ⟨m, hm, hbeq⟩
      obtain ⟨med, hmm⟩ := Option.isSome_iff_exists.mp hfind
      refine ⟨stream_event_payload r med, ?_, rfl⟩
      show stream_event_payload r med ∈ (due_stream_query st).map (fun rx =>
        match find_medication st rx.medicationId with
        | some med => stream_event_payload rx med
        | none => [])
      have hfr : (fun rx =>
          match find_medication st rx.medicationId with
          | some med => stream_event_payload rx med
          | none => ([] : List (String × JVal))) r = stream_event_payload r med := by
        show (match find_medication st r.medicationId with
          | some med => stream_event_payload r med
          | none => ([] : List (String × JVal))) = stream_event_payload r med
        rw [hmm]
      exact hfr ▸ List.mem_map_of_mem _ hrd
    · show statusOfList r.id ((due_stream_query st).foldl
        (fun acc rx => setStatusList rx.id .sent acc) st.reminders) = some .sent
      exact statusOfList_foldl_set_mem _ _ r hrd (statusOfList_isSome_of_mem hr)

/-- Witness for C10: two different validated users receive the identical
first pass over a store with one DUE reminder of a third party, and the tick
marks it SENT. -/
theorem C10_witness :
    notification_generator_step exDecode "tokenA" exStoreStream =
      notification_generator_step exDecode "tokenB" exStoreStream ∧
    (∃ p ∈ (notification_tick exStoreStream).1, List.lookup "id" p = some (.num 3)) ∧
    (notification_tick exStoreStream).2.statusOf 3 = some .sent := by
  have h := C10_stream_user_blind exDecode exStoreStream "tokenA" "tokenB" exUser exUserB
    (by decide) (by decide)
  refine ⟨h.1, ?_, ?_⟩
  · exact (h.2.2 ⟨3, 1, 7, .due⟩ (by decide) rfl (by decide)).1
  · exact (h.2.2 ⟨3, 1, 7, .due⟩ (by decide) rfl (by decide)).2

end MediRemind
